import Mathlib

/-!
Verification of the type-descriptor subsystem of the `ton_abi` vendored crate
(`src/vendor/ton_abi/src/param_type/param_type.rs`).

The Rust enum `ParamType` and its methods `type_signature`, `set_components`,
`bit_len`, `is_supported` and `get_map_key_size` are embedded shallowly below.
Rust `usize` values become `Nat`; `u8` becomes `Nat` (only order comparisons
are performed on it, so no wrap-around is involved); a Rust panic is modelled
by `Option`/`none`; `Result<T>` with the crate's `AbiError` becomes
`Except AbiError T`; the `&mut self` mutation of `set_components` is modelled
by returning the post-state next to the `Result`.
-/

namespace TonAbi

/-- Modelled from the spec: the error kinds of the crate (`AbiError`, defined
outside the visible sources). `EmptyComponents` — attachment of zero fields to
a tuple; `UnusedComponents` — attachment of fields to a type that accepts
none; `InvalidData` — carries a human-readable message. -/
inductive AbiError : Type where
  | EmptyComponents : AbiError
  | UnusedComponents : AbiError
  | InvalidData : String → AbiError
deriving DecidableEq, Repr

mutual
/-- The `ParamType` enum of `param_type.rs`: one ABI value type descriptor. -/
inductive ParamType : Type where
  | Unknown : ParamType
  | Uint : Nat → ParamType
  | Int : Nat → ParamType
  | Bool : ParamType
  | Tuple : List Param → ParamType
  | Array : ParamType → ParamType
  | FixedArray : ParamType → Nat → ParamType
  | Cell : ParamType
  | Map : ParamType → ParamType → ParamType
  | Address : ParamType
  | Bytes : ParamType
  | FixedBytes : Nat → ParamType
  | Gram : ParamType
  | Time : ParamType
  | Expire : ParamType
  | PublicKey : ParamType

/-- Modelled from the spec: a Named Field, the `Param` struct of the crate
(defined outside the visible sources): a (name, type descriptor) pair. -/
inductive Param : Type where
  | mk : String → ParamType → Param
end

/-- Field accessor for the name component of a `Param`. -/
def Param.name : Param → String
  | .mk n _ => n

/-- Field accessor for the `kind` component of a `Param` (its type). -/
def Param.kind : Param → ParamType
  | .mk _ k => k

/-- Modelled from the spec: `STD_ADDRESS_BIT_LENGTH`, the named constant for
the fixed standard address bit length, defined in the crate's `token` module
(outside the visible sources) and shared with the encoding layer. The visible
code and the spec fix only that it is a single named constant; its numeric
value (267 bits for a standard internal address) plays no role below. -/
def STD_ADDRESS_BIT_LENGTH : Nat := 267

/-- Embedding of `String::replace_range(..1, "(")` as used in the `Tuple`
branch of `type_signature`: replace the first byte of the string by a single
opening parenthesis. Rust panics when byte index 1 is out of bounds, i.e.
when the string is empty; the panic is modelled by `none`. (At its sole call
site the string, when non-empty, starts with the one-byte character made of a
comma, so the byte-level splice is the same as a character-level one.) -/
def replaceFirstByteWithParen (s : String) : Option String :=
  if s.data.length = 0 then none
  else some (String.mk ('('.toString.data ++ s.data.tail))

mutual
/-- Embedding of `ParamType::type_signature`. A result of `none` models a
Rust panic (reachable only through the empty-`Tuple` `replace_range` splice);
`some s` models a normal return of the string `s`. -/
def typeSignature : ParamType → Option String
  | .Unknown => some "unknown"
  | .Uint size => some ("uint" ++ toString size)
  | .Int size => some ("int" ++ toString size)
  | .Bool => some "bool"
  | .Tuple params =>
      match tupleFold params "" with
      | none => none
      | some signature =>
          match replaceFirstByteWithParen signature with
          | none => none
          | some opened => some (opened ++ ")")
  | .Array param_type =>
      match typeSignature param_type with
      | none => none
      | some s => some (s ++ "[]")
  | .FixedArray param_type size =>
      match typeSignature param_type with
      | none => none
      | some s => some (s ++ "[" ++ toString size ++ "]")
  | .Cell => some "cell"
  | .Map key_type value_type =>
      match typeSignature key_type with
      | none => none
      | some ks =>
          match typeSignature value_type with
          | none => none
          | some vs => some ("map(" ++ ks ++ "," ++ vs ++ ")")
  | .Address => some "address"
  | .Bytes => some "bytes"
  | .FixedBytes size => some ("fixedbytes" ++ toString size)
  | .Gram => some "gram"
  | .Time => some "time"
  | .Expire => some "expire"
  | .PublicKey => some "pubkey"

/-- The `for param in params` accumulation loop of the `Tuple` branch of
`type_signature`: starting from the accumulator `acc`, append a comma and the
signature of each field's kind, in order. `none` models a panic inside a
recursive `type_signature` call. -/
def tupleFold : List Param → String → Option String
  | [], acc => some acc
  | .mk _ kind :: rest, acc =>
      match typeSignature kind with
      | none => none
      | some s => tupleFold rest (acc ++ "," ++ s)
end

/-- Embedding of `ParamType::set_components`. The Rust method takes
`&mut self` and returns `Result<()>`; here the pair holds the `Result`
and the post-state of the descriptor (`self` after the call). -/
def setComponents : ParamType → List Param → Except AbiError Unit × ParamType
  | .Tuple params, components =>
      if components.length = 0 then
        (.error .EmptyComponents, .Tuple params)
      else
        (.ok (), .Tuple components)
  | .Array array_type, components =>
      let r := setComponents array_type components
      (r.1, .Array r.2)
  | .FixedArray array_type size, components =>
      let r := setComponents array_type components
      (r.1, .FixedArray r.2 size)
  | .Map key_type value_type, components =>
      let r := setComponents value_type components
      (r.1, .Map key_type r.2)
  | other, components =>
      if components.length ≠ 0 then
        (.error .UnusedComponents, other)
      else
        (.ok (), other)

/-- Embedding of `ParamType::bit_len`: type bit length for a hashmap key. -/
def bitLen : ParamType → Nat
  | .Uint size => size
  | .Int size => size
  | _ => 0

/-- Embedding of `ParamType::is_supported`. The `u8` argument `abi_version`
is modelled by a `Nat`; the method only compares it with 1 and 2. -/
def isSupported (p : ParamType) (abi_version : Nat) : Bool :=
  match p with
  | .Time | .Expire | .PublicKey => decide (abi_version ≥ 2)
  | _ => decide (abi_version ≥ 1)

/-- Embedding of `ParamType::get_map_key_size`. -/
def getMapKeySize : ParamType → Except AbiError Nat
  | .Int size => .ok size
  | .Uint size => .ok size
  | .Address => .ok STD_ADDRESS_BIT_LENGTH
  | _ => .error (.InvalidData "Only integer and std address values can be map keys")

/-- Embedding of the `fmt::Display` implementation for `ParamType`: it writes
exactly `self.type_signature()` into the formatter, so the rendered text (or
panic) is that of `type_signature`. -/
def displayFmt (p : ParamType) : Option String :=
  typeSignature p

mutual
/-- State-threaded embedding of `ParamType::type_signature`: the `&self`
receiver is threaded through the call and returned next to the result, so
that absence of mutation is a provable statement rather than a convention.
Each branch mirrors the corresponding branch of `typeSignature`, rebuilding
the receiver from the threaded sub-receivers. -/
def typeSignatureSt : ParamType → Option String × ParamType
  | .Unknown => (some "unknown", .Unknown)
  | .Uint size => (some ("uint" ++ toString size), .Uint size)
  | .Int size => (some ("int" ++ toString size), .Int size)
  | .Bool => (some "bool", .Bool)
  | .Tuple params =>
      let r := tupleFoldSt params ""
      match r.1 with
      | none => (none, .Tuple r.2)
      | some signature =>
          match replaceFirstByteWithParen signature with
          | none => (none, .Tuple r.2)
          | some opened => (some (opened ++ ")"), .Tuple r.2)
  | .Array param_type =>
      let r := typeSignatureSt param_type
      match r.1 with
      | none => (none, .Array r.2)
      | some s => (some (s ++ "[]"), .Array r.2)
  | .FixedArray param_type size =>
      let r := typeSignatureSt param_type
      match r.1 with
      | none => (none, .FixedArray r.2 size)
      | some s => (some (s ++ "[" ++ toString size ++ "]"), .FixedArray r.2 size)
  | .Cell => (some "cell", .Cell)
  | .Map key_type value_type =>
      let rk := typeSignatureSt key_type
      match rk.1 with
      | none => (none, .Map rk.2 value_type)
      | some ks =>
          let rv := typeSignatureSt value_type
          match rv.1 with
          | none => (none, .Map rk.2 rv.2)
          | some vs => (some ("map(" ++ ks ++ "," ++ vs ++ ")"), .Map rk.2 rv.2)
  | .Address => (some "address", .Address)
  | .Bytes => (some "bytes", .Bytes)
  | .FixedBytes size => (some ("fixedbytes" ++ toString size), .FixedBytes size)
  | .Gram => (some "gram", .Gram)
  | .Time => (some "time", .Time)
  | .Expire => (some "expire", .Expire)
  | .PublicKey => (some "pubkey", .PublicKey)

/-- State-threaded version of `tupleFold`: the field list iterated by the
`for` loop is threaded through and returned next to the accumulated string.
A panic (`none`) stops the iteration at the offending field. -/
def tupleFoldSt : List Param → String → Option String × List Param
  | [], acc => (some acc, [])
  | .mk n kind :: rest, acc =>
      let r := typeSignatureSt kind
      match r.1 with
      | none => (none, .mk n r.2 :: rest)
      | some s =>
          let rr := tupleFoldSt rest (acc ++ "," ++ s)
          (rr.1, .mk n r.2 :: rr.2)
end

/-! Helper vocabulary used to state the claims. `commaJoined` renders the
comma-joined list of signatures of the spec's tuple rule; `commaLed` is the
same list with a leading comma before each element, matching the loop's
accumulation order; `fieldSignatures` collects the signatures of the types of
a field list, in field order, propagating a panic of any recursive call. -/

/-- Concatenation of the given strings, each preceded by one comma. -/
def commaLed : List String → String
  | [] => ""
  | s :: rest => ("," ++ s) ++ commaLed rest

/-- The comma-joined concatenation of the given strings, in order. -/
def commaJoined : List String → String
  | [] => ""
  | s :: rest => s ++ commaLed rest

/-- Signatures of the types of the given fields, in field order; `none` when
some recursive `typeSignature` call panics. -/
def fieldSignatures : List Param → Option (List String)
  | [] => some []
  | p :: rest =>
      match typeSignature p.kind, fieldSignatures rest with
      | some s, some ss => some (s :: ss)
      | _, _ => none

/-- The scalar/leaf variants named by the attachment claim: every variant of
`ParamType` other than `Tuple`, `Array`, `FixedArray` and `Map`. -/
def isLeaf : ParamType → Bool
  | .Uint _ => true
  | .Int _ => true
  | .Bool => true
  | .Cell => true
  | .Address => true
  | .Bytes => true
  | .FixedBytes _ => true
  | .Gram => true
  | .Time => true
  | .Expire => true
  | .PublicKey => true
  | .Unknown => true
  | _ => false

/-- The accumulation loop of the `Tuple` branch appends, after the initial
accumulator, one leading comma and then the signature of each field. -/
theorem tupleFold_eq (ps : List Param) (acc : String) :
    tupleFold ps acc = (fieldSignatures ps).map (fun ss => acc ++ commaLed ss) := by
  induction ps generalizing acc with
  | nil => simp [tupleFold, fieldSignatures, commaLed]
  | cons p rest ih =>
      obtain ⟨n, kind⟩ := p
      simp only [tupleFold, fieldSignatures]
      cases h : typeSignature kind with
      | none => simp [Param.kind, h]
      | some s =>
          cases h2 : fieldSignatures rest with
          | none => simp [Param.kind, h, h2, ih, tupleFold]
          | some ss => simp [Param.kind, h, h2, ih, commaLed, String.append_assoc]

/-- The `replace_range` splice on a comma-led string replaces the comma by an
opening parenthesis. -/
theorem replaceFirst_comma (x : String) :
    replaceFirstByteWithParen ("," ++ x) = some ("(" ++ x) := by
  simp [replaceFirstByteWithParen, String.data_append]
  rfl

/-- On a non-empty field list whose recursive signatures all exist, the
`Tuple` branch parenthesizes their comma-joined concatenation. -/
theorem tuple_sig (ps : List Param) (ss : List String) (hne : ps ≠ [])
    (hsig : fieldSignatures ps = some ss) :
    typeSignature (.Tuple ps) = some ("(" ++ commaJoined ss ++ ")") := by
  cases ps with
  | nil => exact absurd rfl hne
  | cons p rest =>
      simp only [fieldSignatures] at hsig
      cases h1 : typeSignature p.kind with
      | none => rw [h1] at hsig; simp at hsig
      | some s =>
          cases h2 : fieldSignatures rest with
          | none => rw [h1, h2] at hsig; simp at hsig
          | some ss2 =>
              rw [h1, h2] at hsig
              simp only [Option.some.injEq] at hsig
              subst hsig
              simp only [typeSignature]
              rw [tupleFold_eq]
              simp only [fieldSignatures, h1, h2, Option.map_some']
              have he : "" ++ commaLed (s :: ss2) = "," ++ (s ++ commaLed ss2) := by
                show commaLed (s :: ss2) = _
                simp [commaLed, String.append_assoc]
              rw [he, replaceFirst_comma]
              rfl

mutual
/-- Helper for the purity claim: the state-threaded signature computation
returns the receiver unchanged. Proved mutually with `foldSt_state`. -/
theorem sigSt_state : ∀ p : ParamType, (typeSignatureSt p).2 = p
  | .Unknown => rfl
  | .Uint _ => rfl
  | .Int _ => rfl
  | .Bool => rfl
  | .Tuple params => by
      have ih := foldSt_state params ""
      simp only [typeSignatureSt]
      cases h : (tupleFoldSt params "").1 with
      | none => simp [h, ih]
      | some sig => cases h2 : replaceFirstByteWithParen sig <;> simp [h, h2, ih]
  | .Array t => by
      have ih := sigSt_state t
      simp only [typeSignatureSt]
      cases h : (typeSignatureSt t).1 <;> simp [h, ih]
  | .FixedArray t k => by
      have ih := sigSt_state t
      simp only [typeSignatureSt]
      cases h : (typeSignatureSt t).1 <;> simp [h, ih]
  | .Cell => rfl
  | .Map kt vt => by
      have ihk := sigSt_state kt
      have ihv := sigSt_state vt
      simp only [typeSignatureSt]
      cases hk : (typeSignatureSt kt).1 with
      | none => simp [hk, ihk, ihv]
      | some ks => cases hv : (typeSignatureSt vt).1 <;> simp [hk, hv, ihk, ihv]
  | .Address => rfl
  | .Bytes => rfl
  | .FixedBytes _ => rfl
  | .Gram => rfl
  | .Time => rfl
  | .Expire => rfl
  | .PublicKey => rfl

/-- Helper for the purity claim: the state-threaded field loop returns the
field list unchanged. -/
theorem foldSt_state : ∀ (ps : List Param) (acc : String), (tupleFoldSt ps acc).2 = ps
  | [], _ => rfl
  | .mk n kind :: rest, acc => by
      have ih1 := sigSt_state kind
      simp only [tupleFoldSt]
      cases h : (typeSignatureSt kind).1 with
      | none => simp [h, ih1]
      | some s =>
          have ih2 := foldSt_state rest (acc ++ "," ++ s)
          simp [h, ih1, ih2]
end

/-- C1: for every descriptor, `type_signature` returns exactly the canonical
recursive signature: each scalar variant maps to its fixed literal token,
`Array(elem)` appends empty square brackets to the element signature,
`FixedArray(elem, k)` appends the bracketed size, `Map(key, value)` wraps the
two signatures in a map header, and a `Tuple` with a non-empty field list
parenthesizes the comma-joined signatures of its fields' types in field
order (whenever those recursive signatures themselves return). -/
theorem C1_type_signature_canonical :
    typeSignature .Unknown = some "unknown"
    ∧ (∀ n, typeSignature (.Uint n) = some ("uint" ++ toString n))
    ∧ (∀ n, typeSignature (.Int n) = some ("int" ++ toString n))
    ∧ typeSignature .Bool = some "bool"
    ∧ typeSignature .Cell = some "cell"
    ∧ typeSignature .Address = some "address"
    ∧ typeSignature .Bytes = some "bytes"
    ∧ (∀ n, typeSignature (.FixedBytes n) = some ("fixedbytes" ++ toString n))
    ∧ typeSignature .Gram = some "gram"
    ∧ typeSignature .Time = some "time"
    ∧ typeSignature .Expire = some "expire"
    ∧ typeSignature .PublicKey = some "pubkey"
    ∧ (∀ elem s, typeSignature elem = some s →
        typeSignature (.Array elem) = some (s ++ "[]"))
    ∧ (∀ elem k s, typeSignature elem = some s →
        typeSignature (.FixedArray elem k) = some (s ++ "[" ++ toString k ++ "]"))
    ∧ (∀ key value ks vs, typeSignature key = some ks → typeSignature value = some vs →
        typeSignature (.Map key value) = some ("map(" ++ ks ++ "," ++ vs ++ ")"))
    ∧ (∀ ps ss, ps ≠ [] → fieldSignatures ps = some ss →
        typeSignature (.Tuple ps) = some ("(" ++ commaJoined ss ++ ")")) := by
  refine ⟨rfl, fun n => rfl, fun n => rfl, rfl, rfl, rfl, rfl, fun n => rfl, rfl, rfl,
    rfl, rfl, ?_, ?_, ?_, tuple_sig⟩
  · intro elem s h
    simp [typeSignature, h]
  · intro elem k s h
    simp [typeSignature, h]
  · intro key value ks vs hk hv
    simp [typeSignature, hk, hv]

/-- Witness for C1: the tuple clause evaluated on the spec's example field
list, a `uint32` field followed by a `bool` field. -/
theorem C1_type_signature_canonical_witness :
    typeSignature (.Tuple [Param.mk "a" (.Uint 32), Param.mk "b" .Bool])
      = some "(uint32,bool)" := by
  have h := C1_type_signature_canonical.2.2.2.2.2.2.2.2.2.2.2.2.2.2.2
  exact h [Param.mk "a" (.Uint 32), Param.mk "b" .Bool] ["uint32", "bool"]
    (List.cons_ne_nil _ _) rfl

/-- C2 counterexample: the claim says `type_signature` on an empty `Tuple`
completes and produces text; in fact the `replace_range(..1, "(")` splice is
out of bounds on the empty accumulated string, so the call panics (modelled
by `none`) and produces no text. -/
theorem C2_empty_tuple_counterexample :
    ¬ (typeSignature (ParamType.Tuple [])).isSome := by decide

/-- C2 (amended): calling `type_signature` on a `Tuple` whose field list is
empty panics (an out-of-bounds `replace_range` on the empty accumulated
string) instead of returning a degenerate signature string. -/
theorem C2_empty_tuple_panics :
    typeSignature (ParamType.Tuple []) = none := rfl

/-- C3: `set_components` on a `Tuple` fails with `EmptyComponents` exactly
when the supplied field list is empty and otherwise installs the fields as
the tuple's field list; on every scalar/leaf variant it fails with
`UnusedComponents` exactly when the supplied field list is non-empty and
succeeds as a no-op when it is empty. -/
theorem C3_set_components_tuple_and_leaf :
    (∀ (ps cs : List Param),
       ((setComponents (.Tuple ps) cs).1 = .error .EmptyComponents ↔ cs = [])
       ∧ (cs ≠ [] → setComponents (.Tuple ps) cs = (.ok (), .Tuple cs)))
    ∧ (∀ (p : ParamType) (cs : List Param), isLeaf p = true →
       ((setComponents p cs).1 = .error .UnusedComponents ↔ cs ≠ [])
       ∧ (cs = [] → setComponents p cs = (.ok (), p))) := by
  constructor
  · intro ps cs
    cases cs with
    | nil => simp [setComponents]
    | cons c rest => simp [setComponents]
  · intro p cs hleaf
    cases p <;> simp [isLeaf] at hleaf <;> cases cs <;> simp [setComponents]

/-- Witness for C3: installing one field into an empty tuple succeeds and a
leaf accepts the empty field list as a no-op. -/
theorem C3_set_components_witness :
    setComponents (.Tuple []) [Param.mk "x" .Bool] = (.ok (), .Tuple [Param.mk "x" .Bool])
    ∧ setComponents .Bool [] = (.ok (), .Bool) :=
  ⟨(C3_set_components_tuple_and_leaf.1 [] [Param.mk "x" .Bool]).2 (List.cons_ne_nil _ _),
   (C3_set_components_tuple_and_leaf.2 .Bool [] rfl).2 rfl⟩

/-- C4: `set_components` on `Array(elem)` and `FixedArray(elem, k)` forwards
the same field list to the element descriptor, and on `Map(key, value)` to
the value descriptor only; the map's key descriptor and the fixed array's
size are unchanged by the call. -/
theorem C4_set_components_forwarding :
    (∀ (elem : ParamType) (cs : List Param),
       setComponents (.Array elem) cs
         = ((setComponents elem cs).1, .Array (setComponents elem cs).2))
    ∧ (∀ (elem : ParamType) (k : Nat) (cs : List Param),
       setComponents (.FixedArray elem k) cs
         = ((setComponents elem cs).1, .FixedArray (setComponents elem cs).2 k))
    ∧ (∀ (key value : ParamType) (cs : List Param),
       setComponents (.Map key value) cs
         = ((setComponents value cs).1, .Map key (setComponents value cs).2)) :=
  ⟨fun _ _ => rfl, fun _ _ _ => rfl, fun _ _ _ => rfl⟩

/-- C5 counterexample: the claim quotes the `InvalidData` message as "only
integer and address values can be map keys", but the code's message is "Only
integer and std address values can be map keys" — a different string, as the
evaluation at `Bool` shows. -/
theorem C5_message_counterexample :
    getMapKeySize .Bool
      = .error (.InvalidData "Only integer and std address values can be map keys")
    ∧ "Only integer and std address values can be map keys"
      ≠ "only integer and address values can be map keys" :=
  ⟨rfl, by decide⟩

/-- C5 (amended): `get_map_key_size` returns the width for `Uint(n)` and
`Int(n)`, the standard address bit-length constant for `Address`, and fails
on every other variant with `InvalidData` carrying the message "Only integer
and std address values can be map keys". -/
theorem C5_get_map_key_size :
    (∀ n, getMapKeySize (.Uint n) = .ok n)
    ∧ (∀ n, getMapKeySize (.Int n) = .ok n)
    ∧ getMapKeySize .Address = .ok STD_ADDRESS_BIT_LENGTH
    ∧ (∀ p : ParamType, (∀ n, p ≠ .Uint n) → (∀ n, p ≠ .Int n) → p ≠ .Address →
        getMapKeySize p
          = .error (.InvalidData "Only integer and std address values can be map keys")) := by
  refine ⟨fun n => rfl, fun n => rfl, rfl, ?_⟩
  intro p h1 h2 h3
  cases p <;> first
    | rfl
    | exact absurd rfl (h1 _)
    | exact absurd rfl (h2 _)
    | exact absurd rfl h3

/-- Witness for C5: the failure clause evaluated at `Bool` and the success
clause at `Uint(128)`. -/
theorem C5_get_map_key_size_witness :
    getMapKeySize .Bool
      = .error (.InvalidData "Only integer and std address values can be map keys")
    ∧ getMapKeySize (.Uint 128) = .ok 128 :=
  ⟨C5_get_map_key_size.2.2.2 .Bool (fun _ h => ParamType.noConfusion h)
      (fun _ h => ParamType.noConfusion h) (fun h => ParamType.noConfusion h),
   C5_get_map_key_size.1 128⟩

/-- C6: `is_supported(v)` is true for `Time`, `Expire` and `PublicKey`
exactly when the ABI version is at least 2, and for every other variant
exactly when it is at least 1; the function is total (a Lean function into
`Bool`) and never fails. -/
theorem C6_is_supported :
    ∀ v : Nat,
      (isSupported .Time v = true ↔ 2 ≤ v)
      ∧ (isSupported .Expire v = true ↔ 2 ≤ v)
      ∧ (isSupported .PublicKey v = true ↔ 2 ≤ v)
      ∧ (∀ p : ParamType, p ≠ .Time → p ≠ .Expire → p ≠ .PublicKey →
          (isSupported p v = true ↔ 1 ≤ v)) := by
  intro v
  refine ⟨by simp [isSupported], by simp [isSupported], by simp [isSupported], ?_⟩
  intro p h1 h2 h3
  cases p <;> first
    | exact absurd rfl h1
    | exact absurd rfl h2
    | exact absurd rfl h3
    | simp [isSupported]

/-- Witness for C6: the spec's own test vector: `Time` is unsupported at
version 1 and supported at 2, and `Bool` is supported at 1. -/
theorem C6_is_supported_witness :
    isSupported .Time 1 = false ∧ isSupported .Time 2 = true
    ∧ isSupported .Bool 1 = true := by
  refine ⟨?_, (C6_is_supported 2).1.mpr (by decide),
    ((C6_is_supported 1).2.2.2 .Bool (fun h => ParamType.noConfusion h)
      (fun h => ParamType.noConfusion h) (fun h => ParamType.noConfusion h)).mpr (by decide)⟩
  have h := (C6_is_supported 1).1
  cases hv : isSupported .Time 1
  · rfl
  · exact absurd (h.mp hv) (by decide)

/-- C7: `bit_len` returns the declared width for `Uint(n)` and `Int(n)` and
0 for every other variant. -/
theorem C7_bit_len :
    (∀ n, bitLen (.Uint n) = n)
    ∧ (∀ n, bitLen (.Int n) = n)
    ∧ (∀ p : ParamType, (∀ n, p ≠ .Uint n) → (∀ n, p ≠ .Int n) → bitLen p = 0) := by
  refine ⟨fun n => rfl, fun n => rfl, ?_⟩
  intro p h1 h2
  cases p <;> first
    | rfl
    | exact absurd rfl (h1 _)
    | exact absurd rfl (h2 _)

/-- Witness for C7: a 256-bit unsigned integer reports width 256 and `Bool`
reports 0. -/
theorem C7_bit_len_witness :
    bitLen (.Uint 256) = 256 ∧ bitLen .Bool = 0 :=
  ⟨C7_bit_len.1 256,
   C7_bit_len.2.2 .Bool (fun _ h => ParamType.noConfusion h) (fun _ h => ParamType.noConfusion h)⟩

/-- C8: `type_signature` is deterministic and side-effect-free: the
state-threaded run returns the descriptor unchanged, and a second call on
that returned descriptor yields the identical text. -/
theorem C8_type_signature_pure :
    ∀ p : ParamType,
      (typeSignatureSt p).2 = p
      ∧ (typeSignatureSt ((typeSignatureSt p).2)).1 = (typeSignatureSt p).1 :=
  fun p => ⟨sigSt_state p, by rw [sigSt_state p]⟩

/-- C9: whenever `set_components` returns an error, at any nesting depth
through `Array`/`FixedArray`/`Map` wrappers, the descriptor tree is left
exactly as it was before the call. -/
theorem C9_failed_attach_atomic :
    ∀ (p : ParamType) (cs : List Param) (e : AbiError),
      (setComponents p cs).1 = .error e → (setComponents p cs).2 = p
  | .Tuple ps, cs, e, h => by
      cases cs with
      | nil => simp [setComponents]
      | cons c rest => simp [setComponents] at h
  | .Array t, cs, e, h => by
      have ih := C9_failed_attach_atomic t cs e
      simp only [setComponents] at h ⊢
      rw [ih h]
  | .FixedArray t k, cs, e, h => by
      have ih := C9_failed_attach_atomic t cs e
      simp only [setComponents] at h ⊢
      rw [ih h]
  | .Map kt vt, cs, e, h => by
      have ih := C9_failed_attach_atomic vt cs e
      simp only [setComponents] at h ⊢
      rw [ih h]
  | .Unknown, cs, e, h => by by_cases hc : cs.length ≠ 0 <;> simp [setComponents, hc]
  | .Uint n, cs, e, h => by by_cases hc : cs.length ≠ 0 <;> simp [setComponents, hc]
  | .Int n, cs, e, h => by by_cases hc : cs.length ≠ 0 <;> simp [setComponents, hc]
  | .Bool, cs, e, h => by by_cases hc : cs.length ≠ 0 <;> simp [setComponents, hc]
  | .Cell, cs, e, h => by by_cases hc : cs.length ≠ 0 <;> simp [setComponents, hc]
  | .Address, cs, e, h => by by_cases hc : cs.length ≠ 0 <;> simp [setComponents, hc]
  | .Bytes, cs, e, h => by by_cases hc : cs.length ≠ 0 <;> simp [setComponents, hc]
  | .FixedBytes n, cs, e, h => by by_cases hc : cs.length ≠ 0 <;> simp [setComponents, hc]
  | .Gram, cs, e, h => by by_cases hc : cs.length ≠ 0 <;> simp [setComponents, hc]
  | .Time, cs, e, h => by by_cases hc : cs.length ≠ 0 <;> simp [setComponents, hc]
  | .Expire, cs, e, h => by by_cases hc : cs.length ≠ 0 <;> simp [setComponents, hc]
  | .PublicKey, cs, e, h => by by_cases hc : cs.length ≠ 0 <;> simp [setComponents, hc]

/-- Witness for C9: attaching an empty field list through a `Map` wrapper to
a tuple value side fails with `EmptyComponents` and leaves the tree intact. -/
theorem C9_failed_attach_atomic_witness :
    (setComponents (.Map .Bool (.Tuple [Param.mk "a" .Bool])) []).2
      = .Map .Bool (.Tuple [Param.mk "a" .Bool]) :=
  C9_failed_attach_atomic (.Map .Bool (.Tuple [Param.mk "a" .Bool])) [] .EmptyComponents rfl

/-- C10: the textual `Display` rendering of a descriptor is exactly its
`type_signature`: the two functions agree on every descriptor. -/
theorem C10_display_eq_signature :
    ∀ p : ParamType, displayFmt p = typeSignature p :=
  fun _ => rfl

end TonAbi
